import Mathlib

/-! Verification development for the RS-485 dashboard repository.

The repository is a TypeScript/React dashboard (frontend) driving a Tauri
desktop shell whose Rust serial module implements the serial-port lifecycle.
The Rust serial core itself (src-tauri/src/serial.rs) is not part of the
delivered sources, only its TypeScript callers are; where a claim depends on
the core the corresponding definitions below are modelled from the spec and
marked as such.  All other definitions are shallow embeddings of the
TypeScript sources (eventsSlice.ts, ring.ts, runtimeSlice.ts,
DeviceMonitor.tsx, Dashboard.tsx). -/

namespace RS485

/-! ## Events slice (frontend eventsSlice.ts) -/

/-- AppEvent record from frontend types (id, ts, deviceId, type, severity,
message, source).  The string-literal union types are embedded as strings. -/
structure AppEvent where
  id : String
  ts : String
  deviceId : Option String
  type : String
  severity : String
  message : String
  source : String
deriving DecidableEq, Repr

/-- State of the events slice: the stored items array. -/
structure EventsState where
  items : List AppEvent
deriving DecidableEq, Repr

/-- The addEvent reducer of eventsSlice: unshift the new event at the front,
then pop the last element when the length exceeds 500. -/
def addEvent (s : EventsState) (e : AppEvent) : EventsState :=
  let items := e :: s.items
  { items := if items.length > 500 then items.dropLast else items }

/-- The setEvents reducer of eventsSlice: replace the stored items. -/
def setEvents (_s : EventsState) (es : List AppEvent) : EventsState :=
  { items := es }

/-- The clearEvents reducer of eventsSlice. -/
def clearEvents (_s : EventsState) : EventsState :=
  { items := [] }

/-! ## RingBuffer (frontend lib/ring.ts)

The backing array is modelled as a function from indices to optional values
(a fresh JS array has only holes, i.e. none everywhere).  The index
arithmetic in toArray is carried out over the integers, exactly as JS does;
the JS remainder agrees with the Euclidean remainder here because in every
state the class can construct the dividend is non-negative. -/

structure RingBuffer (T : Type) where
  capacity : Nat
  arr : Nat → Option T
  idx : Nat
  len : Nat

/-- The RingBuffer constructor: a fresh array of the given capacity, idx and
len both 0. -/
def RingBuffer.mk0 (T : Type) (c : Nat) : RingBuffer T :=
  { capacity := c, arr := fun _ => none, idx := 0, len := 0 }

/-- push: write at idx, advance idx modulo capacity, saturate len at
capacity. -/
def RingBuffer.push (r : RingBuffer T) (v : T) : RingBuffer T :=
  { r with
    arr := Function.update r.arr r.idx (some v)
    idx := (r.idx + 1) % r.capacity
    len := min r.capacity (r.len + 1) }

/-- The read position used by toArray for loop index i:
(idx - len + i + capacity) % capacity, computed over the integers. -/
def RingBuffer.slot (r : RingBuffer T) (i : Nat) : Nat :=
  (((r.idx : Int) - r.len + i + r.capacity) % (r.capacity : Int)).toNat

/-- toArray: read len elements starting from the oldest slot. -/
def RingBuffer.toArray (r : RingBuffer T) : List (Option T) :=
  (List.range r.len).map (fun i => r.arr (r.slot i))

/-- size accessor. -/
def RingBuffer.size (r : RingBuffer T) : Nat := r.len

/-- Fold a sequence of push operations over a buffer. -/
def RingBuffer.pushAll (r : RingBuffer T) (xs : List T) : RingBuffer T :=
  xs.foldl RingBuffer.push r

/-! ## Serial session core

The Rust serial core (src-tauri/src/serial.rs, Tauri commands
open_serial_port / close_serial_port / write_serial_data / read_serial_data /
list_serial_ports) is not among the delivered sources; the definitions in
this section are modelled from the spec (sections 3, 4.1, 4.2, 7). -/

/-- Modelled from the spec: parity enum of SerialConfig. -/
inductive Parity
  | none | even | odd
deriving DecidableEq, Repr

/-- Modelled from the spec: stop-bits enum of SerialConfig. -/
inductive StopBits
  | one | two
deriving DecidableEq, Repr

/-- Modelled from the spec: data-bits enum of SerialConfig (fixed to Eight). -/
inductive DataBits
  | eight
deriving DecidableEq, Repr

/-- Modelled from the spec: the SerialConfig value object. -/
structure SerialConfig where
  port : String
  baud : Nat
  parity : Parity
  stopBits : StopBits
  dataBits : DataBits
  readTimeoutMs : Nat
  writeTimeoutMs : Nat
deriving DecidableEq, Repr

/-- Modelled from the spec: the error taxonomy of section 7. -/
inductive SerialError
  | PortNotFound
  | PortBusy
  | PermissionDenied
  | InvalidConfig
  | AlreadyOpen
  | NotOpen
  | Timeout (written : Nat)
  | EncodingError
  | InvalidArgument
  | CloseFailed
  | EnumerationFailed
deriving DecidableEq, Repr

/-- Modelled from the spec: the serial session state machine
(Closed, or Open holding the active config). -/
inductive SessionState
  | closed
  | opened (cfg : SerialConfig)
deriving DecidableEq, Repr

/-- Modelled from the spec: outcome of the OS-level open attempt, used as an
oracle for the environment-dependent failure modes of open. -/
inductive OsOpenOutcome
  | ok
  | portNotFound
  | portBusy
  | permissionDenied
  | invalidConfig
deriving DecidableEq, Repr

/-- Modelled from the spec: open(config).  An already-Open session fails with
AlreadyOpen and is left untouched; otherwise structurally invalid input
(zero timeout, empty port) is InvalidArgument, and the OS outcome decides
the rest.  On success the state becomes Open with the applied config. -/
def openPort (s : SessionState) (cfg : SerialConfig) (os : OsOpenOutcome) :
    Except SerialError SerialConfig × SessionState :=
  match s with
  | .opened c0 => (.error .AlreadyOpen, .opened c0)
  | .closed =>
    if cfg.readTimeoutMs = 0 ∨ cfg.writeTimeoutMs = 0 ∨ cfg.port = "" then
      (.error .InvalidArgument, .closed)
    else
      match os with
      | .ok => (.ok cfg, .opened cfg)
      | .portNotFound => (.error .PortNotFound, .closed)
      | .portBusy => (.error .PortBusy, .closed)
      | .permissionDenied => (.error .PermissionDenied, .closed)
      | .invalidConfig => (.error .InvalidConfig, .closed)

/-- Modelled from the spec: close().  Closing a Closed session is NotOpen;
otherwise the handle is released and the state is forced to Closed whether
or not the OS-level close succeeded; a failed OS close surfaces
CloseFailed. -/
def closePort (s : SessionState) (osCloseOk : Bool) :
    Except SerialError Unit × SessionState :=
  match s with
  | .closed => (.error .NotOpen, .closed)
  | .opened _ => ((if osCloseOk then .ok () else .error .CloseFailed), .closed)

/-- A character counts as a hex digit (0-9, a-f, A-F). -/
def isHexDigit (ch : Char) : Bool :=
  ch.isDigit || ('a' ≤ ch && ch ≤ 'f') || ('A' ≤ ch && ch ≤ 'F')

/-- Numeric value of a hex digit. -/
def hexDigitVal (ch : Char) : Nat :=
  if ch.isDigit then ch.toNat - '0'.toNat
  else if 'a' ≤ ch && ch ≤ 'f' then ch.toNat - 'a'.toNat + 10
  else ch.toNat - 'A'.toNat + 10

/-- Modelled from the spec: decode a hex-pair text into bytes; any odd tail
or non-hex character makes the whole input malformed (none). -/
def decodeHexPairs : List Char → Option (List Nat)
  | [] => some []
  | [_] => Option.none
  | c1 :: c2 :: rest =>
    if isHexDigit c1 && isHexDigit c2 then
      (decodeHexPairs rest).map (fun bs => (hexDigitVal c1 * 16 + hexDigitVal c2) :: bs)
    else Option.none

/-- Modelled from the spec: hex decoding of a payload string. -/
def decodeHex (s : String) : Option (List Nat) :=
  decodeHexPairs s.data

/-- Hex digit character for a value below 16 (lower case). -/
def hexDigitChar (n : Nat) : Char :=
  if n < 10 then Char.ofNat (Char.toNat '0' + n)
  else Char.ofNat (Char.toNat 'a' + n - 10)

/-- Encode bytes as hex pairs. -/
def encodeHexPairs : List Nat → List Char
  | [] => []
  | b :: rest => hexDigitChar (b / 16 % 16) :: hexDigitChar (b % 16) :: encodeHexPairs rest

/-- Modelled from the spec: the hex-pair textual form of a byte sequence. -/
def encodeHex (bs : List Nat) : String :=
  ⟨encodeHexPairs bs⟩

/-- Modelled from the spec: write encoding selector of FrameDirection. -/
inductive Encoding
  | text | hex
deriving DecidableEq, Repr

/-- Text payload bytes: the character codes of the payload string. -/
def textBytes (s : String) : List Nat :=
  s.data.map Char.toNat

/-- Modelled from the spec: write(direction).  On a Closed session the call
is rejected with NotOpen before any transmission; with Hex encoding a
malformed payload is EncodingError and nothing is written; otherwise the
decoded frame is handed to the transport oracle.  The second component is
the byte sequence actually submitted for transmission ([] when rejected). -/
def writeData (s : SessionState) (enc : Encoding) (payload : String)
    (osWrite : List Nat → Except SerialError Nat) :
    Except SerialError Nat × List Nat :=
  match s with
  | .closed => (.error .NotOpen, [])
  | .opened _ =>
    let decoded : Except SerialError (List Nat) :=
      match enc with
      | .text => .ok (textBytes payload)
      | .hex =>
        match decodeHex payload with
        | Option.none => .error .EncodingError
        | some bs => .ok bs
    match decoded with
    | .error e => (.error e, [])
    | .ok bs => (osWrite bs, bs)

/-- Modelled from the spec: the result record of read_serial_data, carrying
the byte count, the raw bytes, and both the text and the hex-pair
representations. -/
structure ReadResult where
  len : Nat
  bytes : List Nat
  text : String
  hex : String
deriving DecidableEq, Repr

/-- Modelled from the spec: read(max_bytes).  Rejected with NotOpen on a
Closed session; max_bytes = 0 is InvalidArgument; otherwise the bytes the
device delivered within the read-timeout window (avail) are returned, at
most max_bytes of them, and a timeout with nothing available is a success
with len = 0. -/
def readData (s : SessionState) (maxBytes : Nat) (avail : List Nat) :
    Except SerialError ReadResult :=
  match s with
  | .closed => .error .NotOpen
  | .opened _ =>
    if maxBytes = 0 then .error .InvalidArgument
    else
      let bs := avail.take maxBytes
      .ok { len := bs.length
            bytes := bs
            text := ⟨bs.map Char.ofNat⟩
            hex := encodeHex bs }

/-- Modelled from the spec: list_ports of the Port Registry.  The oracle is
what the OS device-table query yields: none models an enumeration failure at
the OS layer, some ps the visible ports (possibly none at all). -/
def listPorts (os : Option (List String)) : Except SerialError (List String) :=
  match os with
  | Option.none => .error .EnumerationFailed
  | some ports => .ok ports

/-! ## Monitor UI glue (frontend DeviceMonitor.tsx, Dashboard.tsx)

The handlers dispatch Redux actions; each handler is embedded as a pure
function from its inputs (store fields read, and the outcome of the invoke
call into the Tauri core) to the effects it emits: appended session-log
entries, added events (modulo the generated id and timestamp of buildEvent),
the connection state dispatched, and whether the core was invoked at all. -/

/-- An event as built by buildEvent, without the generated id and ts. -/
structure EmittedEvent where
  type : String
  severity : String
  message : String
  source : String
deriving DecidableEq, Repr

/-- JS String.prototype.includes: substring containment. -/
def jsIncludes (s pat : String) : Bool :=
  decide (List.IsInfix pat.data s.data)

/-- JS String.prototype.trim: strip whitespace from both ends. -/
def jsTrim (s : String) : String :=
  ⟨((s.data.dropWhile Char.isWhitespace).reverse.dropWhile Char.isWhitespace).reverse⟩

/-- Effects of the toggleConnection handler. -/
structure ToggleEffects where
  connState : String
  events : List EmittedEvent
deriving DecidableEq, Repr

/-- The toggleConnection handler of DeviceMonitor.tsx.  Off Tauri it flips
the connection state (the toggleConnState reducer of runtimeSlice).  When
connected it invokes close_serial_port, ignores a close error, and in the
finally block unconditionally dispatches setConnState Disconnected.  When
disconnected it invokes open_serial_port and dispatches Connected on
success, Disconnected on failure. -/
def toggleConnection (isTauri : Bool) (connState : String) (port baud : String)
    (closeResult : Except String Unit) (openResult : Except String Unit) :
    ToggleEffects :=
  if !isTauri then
    { connState := if connState = "Connected" then "Disconnected" else "Connected"
      events := [⟨"Connection", "info", "Connection toggled (web mode).", "system"⟩] }
  else if connState = "Connected" then
    { connState := "Disconnected"
      events :=
        match closeResult with
        | .ok _ => [⟨"Connection", "info", "Serial port closed.", "serial"⟩]
        | .error _ => [] }
  else
    match openResult with
    | .ok _ =>
      { connState := "Connected"
        events := [⟨"Connection", "success",
          "Serial port opened: " ++ port ++ " @ " ++ baud, "serial"⟩] }
    | .error _ =>
      { connState := "Disconnected"
        events := [⟨"Connection", "error", "Failed to open serial port.", "serial"⟩] }

/-- Effects of the sendSerialCommand and readSerialData handlers. -/
structure CommandEffects where
  logs : List String
  events : List EmittedEvent
  didInvoke : Bool
  commandCleared : Bool
  formatArg : Option String
deriving DecidableEq, Repr

/-- The sendSerialCommand handler of DeviceMonitor.tsx.  An unconfigured
device is rejected up front with a blocked warning and no invoke; an empty
trimmed command is silently dropped; otherwise the command is logged and,
under Tauri, write_serial_data is invoked with hex or text format.  In the
error branch a message containing "Serial port not open" is answered with a
configure-first prompt, any other error with a generic failure line; the
finally block clears the command either way. -/
def sendSerialCommand (deviceConfigured : Bool) (command : String)
    (isTauri : Bool) (frameFormat : String)
    (writeResult : Except String Nat) : CommandEffects :=
  if !deviceConfigured then
    { logs := ["[Info] Write: Device not configured. Please configure it first."]
      events := [⟨"Command", "warning", "Write blocked: device not configured.", "command"⟩]
      didInvoke := false
      commandCleared := false
      formatArg := Option.none }
  else if jsTrim command = "" then
    { logs := [], events := [], didInvoke := false, commandCleared := false
      formatArg := Option.none }
  else if !isTauri then
    { logs := ["[Send] " ++ jsTrim command]
      events := []
      didInvoke := false
      commandCleared := true
      formatArg := Option.none }
  else
    let fmt := if frameFormat = "Hex" then "hex" else "text"
    match writeResult with
    | .ok written =>
      { logs := ["[Send] " ++ jsTrim command, "[Send OK] " ++ toString written ++ " bytes"]
        events := [⟨"Command", "success",
          "Write succeeded (" ++ toString written ++ " bytes).", "command"⟩]
        didInvoke := true
        commandCleared := true
        formatArg := some fmt }
    | .error errText =>
      if jsIncludes errText "Serial port not open" then
        { logs := ["[Send] " ++ jsTrim command,
            "[Error] Write failed: Serial port not open.",
            "[Info] Write: Please configure the device first."]
          events := [⟨"Serial", "error", "Write failed: serial port not open.", "serial"⟩]
          didInvoke := true
          commandCleared := true
          formatArg := some fmt }
      else
        { logs := ["[Send] " ++ jsTrim command, "[Error] Write failed: " ++ errText]
          events := [⟨"Serial", "error", "Write failed: " ++ errText, "serial"⟩]
          didInvoke := true
          commandCleared := true
          formatArg := some fmt }

/-- The payload type the frontend receives from read_serial_data. -/
structure ReadPayload where
  len : Nat
  text : String
  hex : String
deriving DecidableEq, Repr

/-- Effects of the readSerialData handler. -/
structure ReadEffects where
  logs : List String
  events : List EmittedEvent
  didInvoke : Bool
deriving DecidableEq, Repr

/-- The readSerialData handler of DeviceMonitor.tsx.  An unconfigured device
is rejected with a blocked warning and no invoke; off Tauri the read is
refused; otherwise read_serial_data is invoked with maxBytes 1024, a
len = 0 payload is logged as "No data" with an info event (not an error),
a non-empty payload is logged in the selected frame format with a success
event, and only a rejected invoke produces an error event. -/
def readSerialData (deviceConfigured : Bool) (isTauri : Bool)
    (frameFormat : String) (readResult : Except String ReadPayload) :
    ReadEffects :=
  if !deviceConfigured then
    { logs := ["[Info] Read: Device not configured. Please configure it first."]
      events := [⟨"Command", "warning", "Read blocked: device not configured.", "command"⟩]
      didInvoke := false }
  else if !isTauri then
    { logs := ["[Error] Serial read requires the desktop app."]
      events := [⟨"System", "error", "Read failed: desktop app required.", "system"⟩]
      didInvoke := false }
  else
    match readResult with
    | .ok payload =>
      if payload.len = 0 then
        { logs := ["[Read] No data"]
          events := [⟨"Command", "info", "Read completed: no data.", "command"⟩]
          didInvoke := true }
      else
        { logs := ["[Read OK] " ++ toString payload.len ++ " bytes",
            "[Read] " ++ (if frameFormat = "Hex" then payload.hex else payload.text)]
          events := [⟨"Command", "success",
            "Read succeeded (" ++ toString payload.len ++ " bytes).", "command"⟩]
          didInvoke := true }
    | .error e =>
      { logs := ["[Error] Read failed: " ++ e]
        events := [⟨"Serial", "error", "Read failed: " ++ e, "serial"⟩]
        didInvoke := true }

/-- Effects of the detectPorts handler of the configuration page. -/
structure DetectEffects where
  detectedPorts : List String
  portSet : Option String
deriving DecidableEq, Repr

/-- The detectPorts handler (Dashboard.tsx DeviceConfiguration).  Off Tauri
or on a failed invoke the detected list is set to empty; on success the
returned ports are stored, and when the current port field is blank the
first detected port is dispatched via setPort. -/
def detectPorts (isTauri : Bool) (currentPort : String)
    (listResult : Except String (List String)) : DetectEffects :=
  if !isTauri then
    { detectedPorts := [], portSet := Option.none }
  else
    match listResult with
    | .ok ports =>
      { detectedPorts := ports
        portSet := if jsTrim currentPort = "" then ports.head? else Option.none }
    | .error _ =>
      { detectedPorts := [], portSet := Option.none }

/-! ## Concrete fixtures -/

/-- A concrete valid configuration (spec concrete scenario 1). -/
def cfg0 : SerialConfig :=
  { port := "/dev/ttyUSB0", baud := 9600, parity := .none, stopBits := .one,
    dataBits := .eight, readTimeoutMs := 500, writeTimeoutMs := 300 }

/-! ## Hex codec facts -/

/-- A decoded hex-pair text has even length and only hex digits. -/
theorem decodeHexPairs_wellFormed :
    ∀ l bs, decodeHexPairs l = some bs →
      l.length % 2 = 0 ∧ ∀ ch ∈ l, isHexDigit ch = true
  | [], _, _ => ⟨rfl, by simp⟩
  | [_], _, h => by simp [decodeHexPairs] at h
  | c1 :: c2 :: rest, bs, h => by
    rw [decodeHexPairs] at h
    by_cases hd : (isHexDigit c1 && isHexDigit c2) = true
    · rw [if_pos hd] at h
      rcases hrest : decodeHexPairs rest with _ | bs2
      · rw [hrest] at h
        simp at h
      · have ih := decodeHexPairs_wellFormed rest bs2 hrest
        simp only [Bool.and_eq_true] at hd
        rcases hd with ⟨hd1, hd2⟩
        refine ⟨?_, ?_⟩
        · have := ih.1
          simp only [List.length_cons]
          omega
        · intro ch hch
          rcases List.mem_cons.mp hch with h1 | hch
          · exact h1 ▸ hd1
          rcases List.mem_cons.mp hch with h2 | hch
          · exact h2 ▸ hd2
          · exact ih.2 ch hch
    · rw [if_neg hd] at h
      simp at h

/-- Hex digit characters are recognised as hex digits. -/
theorem isHexDigit_hexDigitChar (n : Nat) (h : n < 16) :
    isHexDigit (hexDigitChar n) = true := by
  interval_cases n <;> decide

/-- Decoding a hex digit character recovers its value. -/
theorem hexDigitVal_hexDigitChar (n : Nat) (h : n < 16) :
    hexDigitVal (hexDigitChar n) = n := by
  interval_cases n <;> decide

/-- Decoding the hex encoding of a byte sequence recovers it exactly. -/
theorem decode_encode_roundtrip :
    ∀ bs : List Nat, (∀ b ∈ bs, b < 256) →
      decodeHexPairs (encodeHexPairs bs) = some bs
  | [], _ => rfl
  | b :: rest, h => by
    have hb : b < 256 := h b (List.mem_cons_self _ _)
    have hrest := decode_encode_roundtrip rest (fun x hx => h x (List.mem_cons_of_mem _ hx))
    have h1 : b / 16 % 16 < 16 := Nat.mod_lt _ (by norm_num)
    have h2 : b % 16 < 16 := Nat.mod_lt _ (by norm_num)
    simp only [encodeHexPairs, decodeHexPairs]
    rw [if_pos (by rw [isHexDigit_hexDigitChar _ h1, isHexDigit_hexDigitChar _ h2]; rfl)]
    rw [hrest]
    simp only [Option.map_some']
    rw [hexDigitVal_hexDigitChar _ h1, hexDigitVal_hexDigitChar _ h2]
    have : b / 16 % 16 * 16 + b % 16 = b := by omega
    rw [this]

/-! ## Claim theorems -/

/-- C1: a read on an Open session with nothing delivered within the timeout
window completes as a success with len = 0, and the caller surfaces it as a
non-error outcome (a No data log line and an info event). -/
theorem read_timeout_empty_success (cfg : SerialConfig) (maxBytes : Nat) (fmt : String)
    (h : 0 < maxBytes) :
    readData (.opened cfg) maxBytes [] = .ok ⟨0, [], "", ""⟩ ∧
    (readSerialData true true fmt (.ok ⟨0, "", ""⟩)).logs = ["[Read] No data"] ∧
    (readSerialData true true fmt (.ok ⟨0, "", ""⟩)).events =
      [⟨"Command", "info", "Read completed: no data.", "command"⟩] := by
  refine ⟨?_, rfl, rfl⟩
  simp [readData, Nat.pos_iff_ne_zero.mp h, encodeHex]
  rfl

/-- Witness for C1 at the spec scenario 4 input. -/
theorem read_timeout_empty_success_w :
    readData (.opened cfg0) 1024 [] = .ok ⟨0, [], "", ""⟩ ∧
    (readSerialData true true "Hex" (.ok ⟨0, "", ""⟩)).logs = ["[Read] No data"] ∧
    (readSerialData true true "Hex" (.ok ⟨0, "", ""⟩)).events =
      [⟨"Command", "info", "Read completed: no data.", "command"⟩] :=
  read_timeout_empty_success cfg0 1024 "Hex" (by decide)

/-- C2: close always leaves the session Closed, whether or not the OS close
succeeded, and the caller's disconnect path dispatches Disconnected
unconditionally (the finally block), even when close_serial_port rejects. -/
theorem close_always_closed (s : SessionState) (osCloseOk : Bool) (port baud : String)
    (closeResult openResult : Except String Unit) :
    (closePort s osCloseOk).2 = .closed ∧
    (toggleConnection true "Connected" port baud closeResult openResult).connState
      = "Disconnected" := by
  constructor
  · cases s <;> cases osCloseOk <;> rfl
  · cases closeResult <;> rfl

/-- C3: no I/O runs against a Closed session: the core rejects write and read
with NotOpen before any transmission, and the UI handlers block an
unconfigured device with a warning and never invoke the core. -/
theorem closed_rejects_io (enc : Encoding) (payload : String)
    (osWrite : List Nat → Except SerialError Nat) (maxBytes : Nat) (avail : List Nat)
    (cmd fmt : String) (wres : Except String Nat) (rres : Except String ReadPayload) :
    writeData .closed enc payload osWrite = (.error .NotOpen, []) ∧
    readData .closed maxBytes avail = .error .NotOpen ∧
    (sendSerialCommand false cmd true fmt wres).didInvoke = false ∧
    (sendSerialCommand false cmd true fmt wres).events =
      [⟨"Command", "warning", "Write blocked: device not configured.", "command"⟩] ∧
    (readSerialData false true fmt rres).didInvoke = false ∧
    (readSerialData false true fmt rres).events =
      [⟨"Command", "warning", "Read blocked: device not configured.", "command"⟩] :=
  ⟨rfl, rfl, rfl, rfl, rfl, rfl⟩

/-- C4: opening an already-Open session fails with AlreadyOpen for any
requested configuration, and the state keeps the original config. -/
theorem open_on_open_alreadyOpen (c0 cfg : SerialConfig) (os : OsOpenOutcome) :
    openPort (.opened c0) cfg os = (.error .AlreadyOpen, .opened c0) := rfl

/-- C5: a hex write whose payload is odd-length or contains a non-hex
character fails with EncodingError and submits no bytes for transmission. -/
theorem write_hex_malformed (cfg : SerialConfig) (payload : String)
    (osWrite : List Nat → Except SerialError Nat)
    (h : payload.data.length % 2 = 1 ∨ ∃ ch ∈ payload.data, isHexDigit ch = false) :
    writeData (.opened cfg) .hex payload osWrite = (.error .EncodingError, []) := by
  have hnone : decodeHex payload = Option.none := by
    rcases hd : decodeHex payload with _ | bs
    · rfl
    · exfalso
      have hw := decodeHexPairs_wellFormed payload.data bs hd
      rcases h with h | ⟨ch, hm, hbad⟩
      · omega
      · have := hw.2 ch hm
        rw [hbad] at this
        exact Bool.false_ne_true this
  simp [writeData, hnone]

/-- Witness for C5 at the odd-length payload abc. -/
theorem write_hex_malformed_w :
    writeData (.opened cfg0) .hex "abc" (fun _ => .ok 0) = (.error .EncodingError, []) :=
  write_hex_malformed cfg0 "abc" (fun _ => .ok 0) (Or.inl (by decide))

/-- C6 counterexample: a read failure whose error text indicates the serial
port is not open is handled generically by readSerialData: only the generic
failure line is logged and no configure-first prompt is emitted, so the
NotOpen-versus-transport distinction claimed for write and read fails on
the read path. -/
theorem read_notopen_not_distinguished :
    jsIncludes "Serial port not open" "Serial port not open" = true ∧
    (readSerialData true true "Hex" (.error "Serial port not open")).logs
      = ["[Error] Read failed: Serial port not open"] ∧
    ((readSerialData true true "Hex" (.error "Serial port not open")).logs.all
      (fun entry => !(jsIncludes entry "Please configure the device first")))
      = true := by
  refine ⟨by decide, by decide, by decide⟩

/-- C6 (amended): in the write error branch the caller distinguishes a
not-open error from transport errors: a message containing "Serial port not
open" yields the configure-first prompt, any other message the generic
failure line. -/
theorem notopen_prompts_configure (cmd fmt errText : String) (h : jsTrim cmd ≠ "") :
    (jsIncludes errText "Serial port not open" = true →
      (sendSerialCommand true cmd true fmt (.error errText)).logs =
        ["[Send] " ++ jsTrim cmd,
         "[Error] Write failed: Serial port not open.",
         "[Info] Write: Please configure the device first."]) ∧
    (jsIncludes errText "Serial port not open" = false →
      (sendSerialCommand true cmd true fmt (.error errText)).logs =
        ["[Send] " ++ jsTrim cmd, "[Error] Write failed: " ++ errText]) := by
  constructor <;> intro hinc <;> simp [sendSerialCommand, h, hinc]

/-- Witness for C6 at a concrete not-open error text. -/
theorem notopen_prompts_configure_w :
    (jsIncludes "Serial port not open" "Serial port not open" = true →
      (sendSerialCommand true "READ 01" true "ASCII"
          (.error "Serial port not open")).logs =
        ["[Send] " ++ jsTrim "READ 01",
         "[Error] Write failed: Serial port not open.",
         "[Info] Write: Please configure the device first."]) ∧
    (jsIncludes "Serial port not open" "Serial port not open" = false →
      (sendSerialCommand true "READ 01" true "ASCII"
          (.error "Serial port not open")).logs =
        ["[Send] " ++ jsTrim "READ 01",
         "[Error] Write failed: " ++ "Serial port not open"]) :=
  notopen_prompts_configure "READ 01" "ASCII" "Serial port not open" (by decide)

/-- C7: every successful read result carries len, the raw bytes, and both
textual representations; the hex form decodes back to exactly the raw
bytes, so caller-side transcoding is exact. -/
theorem read_dual_representation (cfg : SerialConfig) (maxBytes : Nat) (avail : List Nat)
    (h1 : 0 < maxBytes) (h2 : ∀ b ∈ avail, b < 256) :
    ∃ r : ReadResult,
      readData (.opened cfg) maxBytes avail = .ok r ∧
      r.bytes = avail.take maxBytes ∧
      r.len = r.bytes.length ∧
      r.hex = encodeHex r.bytes ∧
      decodeHex r.hex = some r.bytes ∧
      r.text = ⟨r.bytes.map Char.ofNat⟩ := by
  refine ⟨{ len := (avail.take maxBytes).length, bytes := avail.take maxBytes,
            text := ⟨(avail.take maxBytes).map Char.ofNat⟩,
            hex := encodeHex (avail.take maxBytes) }, ?_, rfl, rfl, rfl, ?_, rfl⟩
  · simp [readData, Nat.pos_iff_ne_zero.mp h1]
  · have hlt : ∀ b ∈ avail.take maxBytes, b < 256 :=
      fun b hb => h2 b (List.take_subset _ _ hb)
    simpa [decodeHex, encodeHex] using decode_encode_roundtrip (avail.take maxBytes) hlt

/-- Witness for C7 at a concrete two-byte delivery. -/
theorem read_dual_representation_w :
    ∃ r : ReadResult,
      readData (.opened cfg0) 1024 [58, 48] = .ok r ∧
      r.bytes = ([58, 48] : List Nat).take 1024 ∧
      r.len = r.bytes.length ∧
      r.hex = encodeHex r.bytes ∧
      decodeHex r.hex = some r.bytes ∧
      r.text = ⟨r.bytes.map Char.ofNat⟩ :=
  read_dual_representation cfg0 1024 [58, 48] (by decide) (by decide)

/-- C8: list_ports yields an empty list (a success) when no ports are
visible, while an OS-layer enumeration failure is the distinct
EnumerationFailed error; only a successful empty enumeration produces the
empty list, and the caller stores it as an empty detected-ports list. -/
theorem list_ports_empty_vs_failure (p : String) :
    listPorts (some []) = .ok [] ∧
    listPorts Option.none = .error .EnumerationFailed ∧
    (∀ os, listPorts os = .ok [] → os = some []) ∧
    (detectPorts true p (.ok [])).detectedPorts = [] := by
  refine ⟨rfl, rfl, ?_, rfl⟩
  intro os hos
  rcases os with _ | ps
  · simp [listPorts] at hos
  · simp [listPorts] at hos
    rw [hos]

/-- A concrete event used in counterexamples and witnesses. -/
def ev0 : AppEvent :=
  ⟨"evt-0", "2026-01-01T00:00:00.000Z", Option.none, "System", "info", "m", "system"⟩

/-- A concrete events state holding 501 items (reachable through the
setEvents reducer, which accepts an arbitrary items array). -/
def eventsState501 : EventsState := ⟨List.replicate 501 ev0⟩

/-- C9 counterexample: on a 501-item events state, addEvent leaves 501 items
stored, so "after any addEvent the items array has at most 500 entries"
fails as a statement about every events state. -/
theorem addEvent_not_bounded_everywhere :
    ¬ ((addEvent eventsState501 ev0).items.length ≤ 500) := by
  have h1 : eventsState501.items.length = 501 := by
    rw [show eventsState501.items = List.replicate 501 ev0 from rfl, List.length_replicate]
  have h2 : (ev0 :: eventsState501.items).length > 500 := by
    rw [List.length_cons, h1]
    omega
  have h3 : (addEvent eventsState501 ev0).items
      = (ev0 :: eventsState501.items).dropLast := by
    simp only [addEvent, if_pos h2]
  rw [h3, List.length_dropLast, List.length_cons, h1]
  omega

/-- C9 (amended): on every events state already within the 500-item bound,
addEvent inserts the new event at index 0 and keeps at most 500 entries;
below the bound nothing is dropped, and at exactly 500 items the last
(oldest) stored entry is dropped. -/
theorem addEvent_bounded (s : EventsState) (e : AppEvent)
    (h : s.items.length ≤ 500) :
    (addEvent s e).items.head? = some e ∧
    (addEvent s e).items.length ≤ 500 ∧
    (s.items.length < 500 → (addEvent s e).items = e :: s.items) ∧
    (s.items.length = 500 → (addEvent s e).items = e :: s.items.dropLast) := by
  have key : (addEvent s e).items
      = if (e :: s.items).length > 500 then (e :: s.items).dropLast
        else e :: s.items := by
    simp only [addEvent]
  rw [key]
  by_cases hlen : (e :: s.items).length > 500
  · rw [if_pos hlen]
    simp only [List.length_cons] at hlen
    have h500 : s.items.length = 500 := by omega
    have hne : s.items ≠ [] := by
      intro hnil
      rw [hnil] at h500
      simp at h500
    rw [List.dropLast_cons_of_ne_nil hne]
    refine ⟨rfl, ?_, ?_, fun _ => rfl⟩
    · simp only [List.length_cons, List.length_dropLast]
      omega
    · intro hlt
      omega
  · rw [if_neg hlen]
    simp only [List.length_cons, gt_iff_lt, not_lt] at hlen
    refine ⟨rfl, by simpa using hlen, fun _ => rfl, ?_⟩
    intro h500
    omega

/-- Witness for the amended C9 at the empty events state. -/
theorem addEvent_bounded_w :
    (addEvent ⟨[]⟩ ev0).items.head? = some ev0 ∧
    (addEvent ⟨[]⟩ ev0).items.length ≤ 500 ∧
    ((⟨[]⟩ : EventsState).items.length < 500 →
      (addEvent ⟨[]⟩ ev0).items = ev0 :: (⟨[]⟩ : EventsState).items) ∧
    ((⟨[]⟩ : EventsState).items.length = 500 →
      (addEvent ⟨[]⟩ ev0).items = ev0 :: (⟨[]⟩ : EventsState).items.dropLast) :=
  addEvent_bounded ⟨[]⟩ ev0 (by decide)


/-! ## RingBuffer refinement -/

/-- Abstract contents of a ring buffer of capacity c after a push: append the
new value and, when already full, drop the oldest (first) value. -/
def modelPush (c : Nat) (m : List T) (v : T) : List T :=
  if m.length < c then m ++ [v] else m.tail ++ [v]

/-- Refinement relation: m is the abstract content (oldest first) of r. -/
def RingInv (c : Nat) (m : List T) (r : RingBuffer T) : Prop :=
  r.capacity = c ∧ r.idx < c ∧ r.len = m.length ∧ m.length ≤ c ∧
  ∀ i, i < m.length → r.arr (r.slot i) = m[i]?

/-- Congruence of the slot computation modulo the capacity. -/
theorem emod_toNat_congr (c : Nat) (a b k : Int) (hk : a = b + c * k) :
    (a % (c : Int)).toNat = (b % (c : Int)).toNat := by
  subst hk
  rw [Int.add_mul_emod_self_left]

/-- Value of the slot computation at an in-range representative. -/
theorem emod_toNat_eq (c : Nat) (a : Int) (j : Nat) (hj : j < c) (k : Int)
    (hk : a = j + c * k) : (a % (c : Int)).toNat = j := by
  subst hk
  rw [Int.add_mul_emod_self_left,
    Int.emod_eq_of_lt (Int.natCast_nonneg j) (by exact_mod_cast hj)]
  exact Int.toNat_natCast j

/-- The slot computation misses j when the offset d is strictly between 0 and
the capacity. -/
theorem emod_toNat_ne (c : Nat) (hc : 0 < c) (a : Int) (j : Nat) (hj : j < c)
    (d k : Int) (hd1 : 0 < d) (hd2 : d < c) (hk : a = j + d + c * k) :
    (a % (c : Int)).toNat ≠ j := by
  intro h
  have hcne : (c : Int) ≠ 0 := by exact_mod_cast hc.ne'
  have ha : a % (c : Int) = j := by
    rw [← h]
    exact (Int.toNat_of_nonneg (Int.emod_nonneg a hcne)).symm
  rw [hk, Int.add_mul_emod_self_left] at ha
  have hj2 : ((j : Int) + d) % c = (j : Int) % c := by
    rw [ha, Int.emod_eq_of_lt (Int.natCast_nonneg j) (by exact_mod_cast hj)]
  have hdvd : (c : Int) ∣ d := by
    have h0 : ((j : Int) + d - j) % c = 0 :=
      Int.emod_eq_emod_iff_emod_sub_eq_zero.mp hj2
    have h1 : ((j : Int) + d - j) = d := by ring
    exact Int.dvd_of_emod_eq_zero (h1 ▸ h0)
  have := Int.le_of_dvd hd1 hdvd
  omega

/-- The empty buffer refines the empty contents. -/
theorem ringInv_mk0 (T : Type) (c : Nat) (hc : 0 < c) :
    RingInv c [] (RingBuffer.mk0 T c) := by
  refine ⟨rfl, hc, rfl, by simp, ?_⟩
  intro i hi
  simp at hi

/-- push preserves the refinement, with the abstract contents evolving by
modelPush. -/
theorem ringInv_push (c : Nat) (hc : 0 < c) (m : List T) (r : RingBuffer T)
    (v : T) (h : RingInv c m r) : RingInv c (modelPush c m v) (r.push v) := by
  obtain ⟨hcap, hidx, hlen, hmle, harr⟩ := h
  obtain ⟨cap, arr, idx, len⟩ := r
  simp only at hcap hidx hlen harr
  subst hlen
  have hcc := hcap.symm
  subst hcc
  by_cases hfull : m.length < c
  · -- not yet full: contents become m ++ [v]
    have hlen2 : min c (m.length + 1) = m.length + 1 := Nat.min_eq_right hfull
    have hmodel : modelPush c m v = m ++ [v] := by
      simp [modelPush, hfull]
    refine ⟨rfl, Nat.mod_lt _ hc, ?_, ?_, ?_⟩
    · simp [RingBuffer.push, hlen2, hmodel]
    · simp [hmodel]
      omega
    · intro i hi
      rw [hmodel] at hi ⊢
      simp only [List.length_append, List.length_cons, List.length_nil] at hi
      have hslot2 : (RingBuffer.push ⟨c, arr, idx, m.length⟩ v).slot i
          = ((((idx : Int) + 1) % c - (m.length + 1) + i + c) % (c : Int)).toNat := by
        simp only [RingBuffer.push, RingBuffer.slot, hlen2]
        push_cast
        ring_nf
      rcases Nat.lt_or_ge i m.length with hilt | hige
      · -- untouched older element
        have hcongr : (RingBuffer.push ⟨c, arr, idx, m.length⟩ v).slot i
            = (RingBuffer.slot ⟨c, arr, idx, m.length⟩ i) := by
          rw [hslot2]
          show _ = (((idx : Int) - m.length + i + c) % (c : Int)).toNat
          apply emod_toNat_congr c _ _ (-(((idx : Int) + 1) / c))
          rw [Int.emod_def]
          ring
        have hne : RingBuffer.slot ⟨c, arr, idx, m.length⟩ i ≠ idx := by
          show (((idx : Int) - m.length + i + c) % (c : Int)).toNat ≠ idx
          apply emod_toNat_ne c hc _ idx hidx ((c : Int) - (m.length - i)) 0
          · omega
          · omega
          · ring
        rw [hcongr]
        show Function.update arr idx (some v) _ = _
        rw [Function.update_noteq hne, harr i hilt,
          List.getElem?_append_left hilt]
      · -- i = m.length : the freshly written element
        have hieq : i = m.length := by omega
        subst hieq
        have hslot : (RingBuffer.push ⟨c, arr, idx, m.length⟩ v).slot m.length
            = idx := by
          rw [hslot2]
          apply emod_toNat_eq c _ idx hidx (1 - (((idx : Int) + 1) / c))
          rw [Int.emod_def]
          ring
        rw [hslot]
        show Function.update arr idx (some v) idx = _
        rw [Function.update_same, List.getElem?_concat_length]
  · -- full: contents become m.tail ++ [v]
    have hmeq : m.length = c := by omega
    have hlen2 : min c (m.length + 1) = c := by omega
    have hmodel : modelPush c m v = m.tail ++ [v] := by
      simp [modelPush, hfull]
    have htlen : m.tail.length = c - 1 := by
      simp [List.length_tail, hmeq]
    refine ⟨rfl, Nat.mod_lt _ hc, ?_, ?_, ?_⟩
    · simp [RingBuffer.push, hlen2, hmodel, htlen]
      omega
    · simp [hmodel, htlen]
      omega
    · intro i hi
      rw [hmodel] at hi ⊢
      simp only [List.length_append, List.length_cons, List.length_nil,
        htlen] at hi
      have hi2 : i < c := by omega
      have hslot2 : (RingBuffer.push ⟨c, arr, idx, m.length⟩ v).slot i
          = ((((idx : Int) + 1) % c - c + i + c) % (c : Int)).toNat := by
        simp only [RingBuffer.push, RingBuffer.slot, hlen2]
        push_cast
        ring_nf
      rcases Nat.lt_or_ge i (c - 1) with hilt | hige
      · -- shifted element, previously at position i+1
        have hi1 : i + 1 < m.length := by omega
        have hcongr : (RingBuffer.push ⟨c, arr, idx, m.length⟩ v).slot i
            = (RingBuffer.slot ⟨c, arr, idx, m.length⟩ (i + 1)) := by
          rw [hslot2]
          show _ = (((idx : Int) - m.length + (i + 1) + c) % (c : Int)).toNat
          apply emod_toNat_congr c _ _ (-(((idx : Int) + 1) / c))
          rw [Int.emod_def]
          push_cast [hmeq]
          ring
        have hne : RingBuffer.slot ⟨c, arr, idx, m.length⟩ (i + 1) ≠ idx := by
          show (((idx : Int) - m.length + (i + 1) + c) % (c : Int)).toNat ≠ idx
          apply emod_toNat_ne c hc _ idx hidx ((i : Int) + 1) 0
          · omega
          · omega
          · push_cast [hmeq]
            ring
        have hit : i < m.tail.length := by omega
        rw [hcongr]
        show Function.update arr idx (some v) _ = _
        rw [Function.update_noteq hne, harr (i + 1) hi1,
          List.getElem?_append_left hit, List.getElem?_tail]
      · -- i = c - 1 : freshly written element
        have hieq : i = c - 1 := by omega
        subst hieq
        have hslot : (RingBuffer.push ⟨c, arr, idx, m.length⟩ v).slot (c - 1)
            = idx := by
          rw [hslot2]
          rw [Nat.cast_sub (by omega : 1 ≤ c)]
          apply emod_toNat_eq c _ idx hidx (1 - (((idx : Int) + 1) / c))
          rw [Int.emod_def]
          push_cast
          ring
        rw [hslot]
        show Function.update arr idx (some v) idx = _
        rw [Function.update_same, ← htlen, List.getElem?_concat_length]

/-- Under the refinement, toArray reads back exactly the abstract contents. -/
theorem toArray_of_inv (c : Nat) (m : List T) (r : RingBuffer T)
    (h : RingInv c m r) : r.toArray = m.map some := by
  obtain ⟨hcap, hidx, hlen, hmle, harr⟩ := h
  apply List.ext_getElem?
  intro n
  rw [RingBuffer.toArray, List.getElem?_map, List.getElem?_map]
  rcases Nat.lt_or_ge n m.length with hn | hn
  · rw [List.getElem?_range (hlen ▸ hn : n < r.len)]
    simp only [Option.map_some']
    rw [harr n hn, List.getElem?_eq_getElem hn]
    rfl
  · rw [List.getElem?_eq_none (le_trans (le_of_eq (List.length_range r.len)) (hlen ▸ hn) : (List.range r.len).length ≤ n),
      List.getElem?_eq_none hn]
    rfl

/-- After any sequence of pushes from the fresh buffer, the refinement holds
with the last min(n, c) pushed values (oldest first) as contents. -/
theorem pushAll_inv (T : Type) (c : Nat) (hc : 0 < c) (xs : List T) :
    RingInv c (xs.drop (xs.length - c)) ((RingBuffer.mk0 T c).pushAll xs) := by
  induction xs using List.reverseRecOn with
  | nil => simpa [RingBuffer.pushAll] using ringInv_mk0 T c hc
  | append_singleton ys v ih =>
    have hstep : (RingBuffer.mk0 T c).pushAll (ys ++ [v])
        = ((RingBuffer.mk0 T c).pushAll ys).push v := by
      simp [RingBuffer.pushAll, List.foldl_append]
    have h2 := ringInv_push c hc _ _ v ih
    have hmp : modelPush c (ys.drop (ys.length - c)) v
        = (ys ++ [v]).drop ((ys ++ [v]).length - c) := by
      rcases Nat.lt_or_ge ys.length c with hlt | hge
      · have h1 : ys.length - c = 0 := by omega
        have h1b : (ys ++ [v]).length - c = 0 := by
          simp only [List.length_append, List.length_cons, List.length_nil]
          omega
        rw [h1, h1b, List.drop_zero, List.drop_zero, modelPush,
          if_pos (by simpa using hlt)]
      · have hk : (ys ++ [v]).length - c = (ys.length - c) + 1 := by
          simp only [List.length_append, List.length_cons, List.length_nil]
          omega
        have hdlen : (ys.drop (ys.length - c)).length = c := by
          rw [List.length_drop]
          omega
        rw [modelPush, if_neg (by omega), hk,
          List.drop_append_of_le_length (by omega), ← List.drop_one,
          List.drop_drop, Nat.add_comm]
    rw [hstep, ← hmp]
    exact h2

/-- C10: for every capacity c > 0 and every sequence of pushes, size never
exceeds c, and toArray returns exactly the last min(n, c) pushed values in
push order, oldest first. -/
theorem ringBuffer_bounded_lastN (T : Type) (c : Nat) (hc : 0 < c)
    (xs : List T) :
    ((RingBuffer.mk0 T c).pushAll xs).size ≤ c ∧
    ((RingBuffer.mk0 T c).pushAll xs).toArray
      = (xs.drop (xs.length - c)).map some := by
  have h := pushAll_inv T c hc xs
  refine ⟨?_, toArray_of_inv c _ _ h⟩
  have hlen := h.2.2.1
  have hle := h.2.2.2.1
  show ((RingBuffer.mk0 T c).pushAll xs).len ≤ c
  omega

/-- Witness for C10: three pushes into a capacity-2 buffer keep the last
two values. -/
theorem ringBuffer_bounded_lastN_w :
    ((RingBuffer.mk0 Nat 2).pushAll [1, 2, 3]).size ≤ 2 ∧
    ((RingBuffer.mk0 Nat 2).pushAll [1, 2, 3]).toArray
      = (([1, 2, 3] : List Nat).drop (([1, 2, 3] : List Nat).length - 2)).map some :=
  ringBuffer_bounded_lastN Nat 2 (by decide) [1, 2, 3]

end RS485
